import Mathlib

/-!
Verification of the fuji_simulation image-grading engine.

This file shallowly embeds the pixel pipeline of the repository into Lean:

* `FujiSim.mulberryNext` — the mulberry32 PRNG used for dither and grain
  (`services/imageProcessor.ts`, `mulberry32`);
* the color primitives (`rgbToHsl`, `hslToRgb`, `getHueWeight`, `applyHSL`,
  `lerp`, `overlayBlend`, `getLuma`);
* `FujiSim.trilinearSample` — the 8-corner trilinear 3D-LUT fetch of `applyLUT`;
* `FujiSim.applyLocalAdj`, `FujiSim.maskStep`, `FujiSim.applyMasks` — the
  local-mask compositor of `applyLUT`;
* `FujiSim.applyLUT` — the per-pixel loop (HSL → tone → LUT → intensity →
  masks → vignette → dither → clamp → write-back + histogram);
* `FujiSim.applyTexture` — the texture pass (smart sharpen → film grain);
* `FujiSim.fullRender` — `applyLUT` followed by `applyTexture`, the render
  entry point;
* `FujiSim.LutGen` — the LUT synthesizer of `services/lutGenerator.ts`
  (`applyWB`, film-simulation switch, `applyGrading`, per-corner sample).

JavaScript numbers are modelled as exact rationals (`ℚ`); byte buffers
(`Uint8ClampedArray` / `Uint8Array`) as functions into `Fin 256` with the
JS conversion semantics (`toU8C` rounds half-to-even after clamping,
`toU8W` wraps modulo 256).  The two JavaScript `Math` functions with no
rational counterpart that the pipeline calls — `Math.pow(2, ·)` (local
exposure) and `Math.sqrt` (vignette radius, soft-light blend) — are
abstracted as a parameter `JsMath`; every theorem below holds for every
interpretation of these two functions.
-/

namespace FujiSim

/-- Interpretations of the two transcendental JavaScript `Math` functions used
by the engine: `pow2 x` stands for `Math.pow(2, x)` and `sqrt x` for
`Math.sqrt(x)`. -/
structure JsMath where
  pow2 : ℚ → ℚ
  sqrt : ℚ → ℚ

/-! ### Mulberry32 PRNG (`mulberry32` in `imageProcessor.ts`) -/

/-- 32-bit `Math.imul`. -/
def imul32 (x y : ℕ) : ℕ := x * y % 4294967296

/-- State update of the mulberry32 generator (`a += 0x6D2B79F5`, 32-bit). -/
def mulberryState (a : ℕ) : ℕ := (a + 0x6D2B79F5) % 4294967296

/-- The 32-bit word emitted by one mulberry32 call from the updated state. -/
def mulberryWord (t1 : ℕ) : ℕ :=
  let t2 := imul32 (t1 ^^^ (t1 >>> 15)) (t1 ||| 1)
  let t3 := t2 ^^^ ((t2 + imul32 (t2 ^^^ (t2 >>> 7)) (t2 ||| 61)) % 4294967296)
  t3 ^^^ (t3 >>> 14)

/-- One step of the mulberry32 generator: from the current internal state `a`
produce the next state and the emitted value in `[0,1)`.  Mirrors the body of
the closure returned by `mulberry32`. -/
def mulberryNext (a : ℕ) : ℕ × ℚ :=
  (mulberryState a, ((mulberryWord (mulberryState a) : ℕ) : ℚ) / 4294967296)

/-- Internal generator state after `k` calls, starting from seed `seed`. -/
def rngAfter (seed k : ℕ) : ℕ :=
  (fun a => (mulberryNext a).1)^[k] seed

/-- Value produced by the `(k+1)`-th call of a generator seeded with `seed`
(0-indexed: `drawAt seed 0` is the first value). -/
def drawAt (seed k : ℕ) : ℚ := (mulberryNext (rngAfter seed k)).2

/-! ### Number conversions (JS semantics) -/

/-- Clamp to the byte range, as `Math.max(0, Math.min(255, v))`. -/
def clamp255 (v : ℚ) : ℚ := max 0 (min 255 v)

/-- JS truncation toward zero (the `| 0` coercion / `ToInt32` on the range of
interest). -/
def jsTruncQ (q : ℚ) : ℤ := if 0 ≤ q then ⌊q⌋ else ⌈q⌉

/-- JS `Math.round`: round half toward positive infinity. -/
def jsRound (q : ℚ) : ℤ := ⌊q + 1 / 2⌋

/-- Round half to even, the rounding mode of `Uint8ClampedArray` stores. -/
def rhe (q : ℚ) : ℤ :=
  if q - ⌊q⌋ < 1 / 2 then ⌊q⌋
  else if 1 / 2 < q - ⌊q⌋ then ⌊q⌋ + 1
  else if ⌊q⌋ % 2 = 0 then ⌊q⌋ else ⌊q⌋ + 1

/-- `Uint8ClampedArray` store: clamp to `[0,255]`, then round half to even. -/
def toU8C (q : ℚ) : Fin 256 :=
  ⟨(rhe (clamp255 q)).toNat, by
    have hle : clamp255 q ≤ 255 := max_le (by norm_num) (min_le_left _ _)
    have hfl : (⌊clamp255 q⌋ : ℚ) ≤ clamp255 q := Int.floor_le _
    have h255 : ⌊clamp255 q⌋ ≤ (255 : ℤ) := by
      have : (⌊clamp255 q⌋ : ℚ) ≤ 255 := le_trans hfl hle
      exact_mod_cast this
    unfold rhe
    split_ifs with h1 h2 h3
    · omega
    · have hq : (⌊clamp255 q⌋ : ℚ) < 255 := by linarith
      have : ⌊clamp255 q⌋ < (255 : ℤ) := by exact_mod_cast hq
      omega
    · omega
    · have hq : (⌊clamp255 q⌋ : ℚ) < 255 := by
        push_neg at h1 h2
        linarith
      have : ⌊clamp255 q⌋ < (255 : ℤ) := by exact_mod_cast hq
      omega⟩

/-- `Uint8Array` store: `ToUint8` wraps modulo 256. -/
def toU8W (z : ℤ) : Fin 256 := ⟨(z % 256).toNat, by omega⟩

/-- Histogram bin chosen by `hist[v | 0]++`: truncate, then view as an index. -/
def binOf (q : ℚ) : ℕ := (jsTruncQ q).toNat

/-! ### Data model -/

/-- One RGBA pixel of a byte buffer. -/
structure Px where
  r : Fin 256
  g : Fin 256
  b : Fin 256
  a : Fin 256
deriving DecidableEq

/-- `ImageData`: dimensions plus the row-major pixel buffer (flat pixel
index `y * width + x`). -/
structure Image where
  width : ℕ
  height : ℕ
  px : ℕ → Px

/-- One channel of the selective HSL adjustments. -/
structure HSLChannel where
  h : ℚ
  s : ℚ
  l : ℚ

/-- The six selective HSL bands. -/
structure HSLAdj where
  red : HSLChannel
  yellow : HSLChannel
  green : HSLChannel
  cyan : HSLChannel
  blue : HSLChannel
  magenta : HSLChannel

/-- One color-grading band (hue, strength). -/
structure ColorGrade where
  h : ℚ
  s : ℚ

/-- Split-toning bands. -/
structure GradingAdj where
  shadows : ColorGrade
  midtones : ColorGrade
  highlights : ColorGrade

/-- White balance pair. -/
structure WhiteBalance where
  temp : ℚ
  tint : ℚ

/-- The `Adjustments` record of `types.ts`. -/
structure Adjustments where
  brightness : ℚ
  contrast : ℚ
  saturation : ℚ
  highlights : ℚ
  shadows : ℚ
  whiteBalance : WhiteBalance
  grading : GradingAdj
  grainAmount : ℚ
  grainSize : ℚ
  vignette : ℚ
  sharpening : ℚ
  halation : ℚ
  hsl : HSLAdj

/-- The `LocalAdjustments` record attached to a mask layer. -/
structure LocalAdjustments where
  exposure : ℚ
  contrast : ℚ
  saturation : ℚ
  temperature : ℚ
  tint : ℚ
  sharpness : ℚ

/-- A mask layer as consumed by `applyLUT` (the string `id` field plays no
role in rendering and is omitted).  `data` is the alpha byte buffer, `none`
modelling a `null` buffer. -/
structure MaskLayer where
  visible : Bool
  opacity : ℚ
  data : Option (ℕ → Fin 256)
  adjustments : LocalAdjustments

/-- A 3D LUT: edge size plus the flat `Uint8Array` of `3 * size³` samples,
laid out at index `(ri + gi*size + bi*size²) * 3`. -/
structure LUTContainer where
  size : ℕ
  data : ℕ → Fin 256

/-- The per-render histogram: three arrays of 256 counters. -/
structure Histogram where
  r : ℕ → ℕ
  g : ℕ → ℕ
  b : ℕ → ℕ

/-- An RGB triple of working floats, as the `{r, g, b}` objects of the
trilinear fetch. -/
structure RGBq where
  r : ℚ
  g : ℚ
  b : ℚ
deriving DecidableEq

/-! ### Color primitives (`imageProcessor.ts`) -/

/-- Linear interpolation, `lerp = (a, b, t) => a + t * (b - a)`. -/
def lerp (a b t : ℚ) : ℚ := a + t * (b - a)

/-- Overlay blend mode helper of the texture pass. -/
def overlayBlend (base blend : ℚ) : ℚ :=
  if base < 1 / 2 then 2 * base * blend
  else 1 - 2 * (1 - base) * (1 - blend)

/-- Rec.709 luma used by the texture pass. -/
def getLuma (r g b : ℚ) : ℚ := 0.2126 * r + 0.7152 * g + 0.0722 * b

/-- JS remainder `x % y` (sign of the dividend, truncated quotient). -/
def jsRem (x y : ℚ) : ℚ := x - y * (jsTruncQ (x / y) : ℚ)

/-- `rgbToHsl` of the processor: returns `(h in degrees, s, l)`.  The
`switch (max)` picks the first of `r`, `g`, `b` equal to the maximum. -/
def rgbToHsl (r g b : ℚ) : ℚ × ℚ × ℚ :=
  let r1 := r / 255
  let g1 := g / 255
  let b1 := b / 255
  let mx := max r1 (max g1 b1)
  let mn := min r1 (min g1 b1)
  let l := (mx + mn) / 2
  if mx ≠ mn then
    let d := mx - mn
    let s := if 1 / 2 < l then d / (2 - mx - mn) else d / (mx + mn)
    let h :=
      if mx = r1 then (g1 - b1) / d + (if g1 < b1 then 6 else 0)
      else if mx = g1 then (b1 - r1) / d + 2
      else if mx = b1 then (r1 - g1) / d + 4
      else 0
    (h / 6 * 360, s, l)
  else (0, 0, l)

/-- The inner `hue2rgb` helper of `hslToRgb`. -/
def hue2rgb (p q t : ℚ) : ℚ :=
  let t1 := if t < 0 then t + 1 else t
  let t2 := if 1 < t1 then t1 - 1 else t1
  if t2 < 1 / 6 then p + (q - p) * 6 * t2
  else if t2 < 1 / 2 then q
  else if t2 < 2 / 3 then p + (q - p) * (2 / 3 - t2) * 6
  else p

/-- `hslToRgb` of the processor (`h` in degrees, `s, l` in `[0,1]`),
returning channels scaled back to `[0,255]`. -/
def hslToRgb (h s l : ℚ) : ℚ × ℚ × ℚ :=
  if s = 0 then (l * 255, l * 255, l * 255)
  else
    let q := if l < 1 / 2 then l * (1 + s) else l + s - l * s
    let p := 2 * l - q
    (hue2rgb p q (h / 360 + 1 / 3) * 255,
     hue2rgb p q (h / 360) * 255,
     hue2rgb p q (h / 360 - 1 / 3) * 255)

/-- Smoothstep hue weight (`getHueWeight`, processor version): wrap-aware
angular distance, zero at or beyond `range`, Hermite falloff inside. -/
def getHueWeight (hue target range : ℚ) : ℚ :=
  let d1 := |hue - target|
  let d2 := if 180 < d1 then 360 - d1 else d1
  if range ≤ d2 then 0
  else
    let t := d2 / range
    let v := 1 - t
    v * v * (3 - 2 * v)

/-- The per-band accumulation step of `applyHSL` (`processChannel`): returns
the `(dH, dS, dL)` contribution of one band. -/
def hslContrib (h target : ℚ) (ch : HSLChannel) : ℚ × ℚ × ℚ :=
  if ch.h = 0 ∧ ch.s = 0 ∧ ch.l = 0 then (0, 0, 0)
  else
    let w := getHueWeight h target 45
    if 0 < w then (ch.h * w, ch.s / 100 * w, ch.l / 100 * w) else (0, 0, 0)

/-- `applyHSL` of the processor used by `applyLUT`: six bands at centers
0/60/120/180/240/300, thresholded deltas, overlay-style luminance shift. -/
def applyHSL (hslAdj : HSLAdj) (r g b : ℚ) : ℚ × ℚ × ℚ :=
  let hsl := rgbToHsl r g b
  let h := hsl.1
  let s := hsl.2.1
  let l := hsl.2.2
  let c0 := hslContrib h 0 hslAdj.red
  let c1 := hslContrib h 60 hslAdj.yellow
  let c2 := hslContrib h 120 hslAdj.green
  let c3 := hslContrib h 180 hslAdj.cyan
  let c4 := hslContrib h 240 hslAdj.blue
  let c5 := hslContrib h 300 hslAdj.magenta
  let dH := c0.1 + c1.1 + c2.1 + c3.1 + c4.1 + c5.1
  let dS := c0.2.1 + c1.2.1 + c2.2.1 + c3.2.1 + c4.2.1 + c5.2.1
  let dL := c0.2.2 + c1.2.2 + c2.2.2 + c3.2.2 + c4.2.2 + c5.2.2
  if 0.01 < |dH| ∨ 0.001 < |dS| ∨ 0.001 < |dL| then
    let h2 := jsRem (h + dH + 360) 360
    let s2 := max 0 (min 1 (s * (1 + dS)))
    let l2 := if 0 < dL then l + (1 - l) * dL * 0.5 else l + l * dL * 0.5
    let l3 := max 0 (min 1 l2)
    hslToRgb h2 s2 l3
  else (r, g, b)

/-! ### Local adjustments and masks (`applyLocalAdj`, mask loop of
`applyLUT`) -/

/-- `applyLocalAdj`: exposure gain `2^(exp/33)`, contrast around 128,
saturation around Rec.601 luma, simplified temperature/tint gains, final
clamp to `[0,255]`. -/
def applyLocalAdj (jsm : JsMath) (r g b : ℚ) (adj : LocalAdjustments) :
    ℚ × ℚ × ℚ :=
  let e1 :=
    if adj.exposure ≠ 0 then
      let factor := jsm.pow2 (adj.exposure / 33)
      (r * factor, g * factor, b * factor)
    else (r, g, b)
  let c1 :=
    if adj.contrast ≠ 0 then
      let factor := (259 * (adj.contrast + 255)) / (255 * (259 - adj.contrast))
      (factor * (e1.1 - 128) + 128, factor * (e1.2.1 - 128) + 128,
       factor * (e1.2.2 - 128) + 128)
    else e1
  let s1 :=
    if adj.saturation ≠ 0 then
      let luma := 0.299 * c1.1 + 0.587 * c1.2.1 + 0.114 * c1.2.2
      let sFactor := 1 + adj.saturation / 100
      (luma + (c1.1 - luma) * sFactor, luma + (c1.2.1 - luma) * sFactor,
       luma + (c1.2.2 - luma) * sFactor)
    else c1
  let t1 :=
    if adj.temperature ≠ 0 ∨ adj.tint ≠ 0 then
      let t := adj.temperature / 100
      let tn := adj.tint / 100
      (s1.1 * (1 + t), s1.2.1 * (1 - tn), s1.2.2 * (1 - t))
    else s1
  (clamp255 t1.1, clamp255 t1.2.1, clamp255 t1.2.2)

/-- The filter applied to the mask list before the pixel loop
(`masks.filter(m => m.visible && m.data && m.opacity > 0)`). -/
def maskActive (m : MaskLayer) : Bool :=
  m.visible && m.data.isSome && decide (0 < m.opacity)

/-- Effect of one mask on the working color at pixel index `pix` (one
iteration of the `for (const mask of activeMasks)` loop). -/
def maskStep (jsm : JsMath) (c : RGBq) (m : MaskLayer) (pix : ℕ) : RGBq :=
  match m.data with
  | none => c
  | some d =>
    if 0 < (d pix).val then
      let weight := ((d pix).val : ℚ) / 255 * m.opacity
      let adj := applyLocalAdj jsm c.r c.g c.b m.adjustments
      ⟨lerp c.r adj.1 weight, lerp c.g adj.2.1 weight, lerp c.b adj.2.2 weight⟩
    else c

/-- The whole mask stage at pixel index `pix`: active masks folded in list
order (filtering per pixel is equivalent to the one-time filter of the source,
because `maskActive` does not depend on the pixel). -/
def applyMasks (jsm : JsMath) (masks : List MaskLayer) (c : RGBq) (pix : ℕ) :
    RGBq :=
  (masks.filter maskActive).foldl (fun acc m => maskStep jsm acc m pix) c

/-! ### Trilinear 3D-LUT sampling (`applyLUT`, LUT lookup stage) -/

/-- Fetch one LUT texel (`getV`).  The flat index is
`(ri + gi*size + bi*size²) * 3`; the `Uint8Array` read is modelled through
`Int.toNat` (the index is nonnegative for all reachable arguments, see the
safety theorem below). -/
def getV (lut : LUTContainer) (ri gi bi : ℤ) : RGBq :=
  let idx := (ri + gi * lut.size + bi * (lut.size * lut.size)) * 3
  ⟨((lut.data idx.toNat).val : ℚ), ((lut.data (idx + 1).toNat).val : ℚ),
   ((lut.data (idx + 2).toNat).val : ℚ)⟩

/-- Channel-wise `lerp` between two texels (`lerpColor`). -/
def lerpColor (c1 c2 : RGBq) (t : ℚ) : RGBq :=
  ⟨lerp c1.r c2.r t, lerp c1.g c2.g t, lerp c1.b c2.b t⟩

/-- The trilinear LUT fetch of `applyLUT`: positions `c * (size-1)/255`,
floor/ceil corner indices (upper clamped to `size-1`), eight fetches,
then seven `lerp`s per channel — along R, then G, then B. -/
def trilinearSample (lut : LUTContainer) (r g b : ℚ) : ℚ × ℚ × ℚ :=
  let lutMax : ℕ := lut.size - 1
  let scale : ℚ := (lutMax : ℚ) / 255
  let rPos := r * scale
  let gPos := g * scale
  let bPos := b * scale
  let r0 := ⌊rPos⌋
  let g0 := ⌊gPos⌋
  let b0 := ⌊bPos⌋
  let r1 := min (lutMax : ℤ) (r0 + 1)
  let g1 := min (lutMax : ℤ) (g0 + 1)
  let b1 := min (lutMax : ℤ) (b0 + 1)
  let dr := rPos - r0
  let dg := gPos - g0
  let db := bPos - b0
  let c000 := getV lut r0 g0 b0
  let c100 := getV lut r1 g0 b0
  let c010 := getV lut r0 g1 b0
  let c110 := getV lut r1 g1 b0
  let c001 := getV lut r0 g0 b1
  let c101 := getV lut r1 g0 b1
  let c011 := getV lut r0 g1 b1
  let c111 := getV lut r1 g1 b1
  let e00 := lerpColor c000 c100 dr
  let e10 := lerpColor c010 c110 dr
  let e01 := lerpColor c001 c101 dr
  let e11 := lerpColor c011 c111 dr
  let f0 := lerpColor e00 e10 dg
  let f1 := lerpColor e01 e11 dg
  let fc := lerpColor f0 f1 db
  (fc.r, fc.g, fc.b)

/-! ### The pixel loop of `applyLUT` -/

/-- Whether the selective-HSL stage runs
(`Object.values(adjustments.hsl).some(c => c.h !== 0 || ...)`). -/
def hasHSL (hsl : HSLAdj) : Prop :=
  (hsl.red.h ≠ 0 ∨ hsl.red.s ≠ 0 ∨ hsl.red.l ≠ 0) ∨
  (hsl.yellow.h ≠ 0 ∨ hsl.yellow.s ≠ 0 ∨ hsl.yellow.l ≠ 0) ∨
  (hsl.green.h ≠ 0 ∨ hsl.green.s ≠ 0 ∨ hsl.green.l ≠ 0) ∨
  (hsl.cyan.h ≠ 0 ∨ hsl.cyan.s ≠ 0 ∨ hsl.cyan.l ≠ 0) ∨
  (hsl.blue.h ≠ 0 ∨ hsl.blue.s ≠ 0 ∨ hsl.blue.l ≠ 0) ∨
  (hsl.magenta.h ≠ 0 ∨ hsl.magenta.s ≠ 0 ∨ hsl.magenta.l ≠ 0)

instance (hsl : HSLAdj) : Decidable (hasHSL hsl) := by
  unfold hasHSL; infer_instance

/-- The body of the pixel loop of `applyLUT` (masked version), up to but not
including the final clamp: selective HSL, brightness, contrast, clamp, luma,
saturation, shadow lift, highlight drop, clamp, trilinear LUT fetch,
intensity mix, local masks, vignette, dither.  `k = y * width + x` is the
flat pixel index, `dither` the value `random() - 0.5` drawn for this
pixel. -/
def pixelRaw (jsm : JsMath) (lut : LUTContainer) (adj : Adjustments)
    (intensity : ℚ) (masks : List MaskLayer) (width height : ℕ) (p : Px)
    (x y k : ℕ) (dither : ℚ) : ℚ × ℚ × ℚ :=
  let contrastFactor := (259 * (adj.contrast + 255)) / (255 * (259 - adj.contrast))
  let saturationFactor := 1 + adj.saturation / 100
  let shadowLift := adj.shadows * 0.5
  let highlightDrop := adj.highlights * 0.5
  let vignetteStr := adj.vignette / 100
  let centerX : ℚ := (width : ℚ) / 2
  let centerY : ℚ := (height : ℚ) / 2
  let maxDist := jsm.sqrt (centerX * centerX + centerY * centerY)
  let s0 : ℚ × ℚ × ℚ :=
    if hasHSL adj.hsl then applyHSL adj.hsl (p.r.val : ℚ) (p.g.val : ℚ) (p.b.val : ℚ)
    else ((p.r.val : ℚ), (p.g.val : ℚ), (p.b.val : ℚ))
  let s1 :=
    if adj.brightness ≠ 0 then
      (s0.1 + adj.brightness, s0.2.1 + adj.brightness, s0.2.2 + adj.brightness)
    else s0
  let s2 :=
    if contrastFactor ≠ 1 then
      (contrastFactor * (s1.1 - 128) + 128, contrastFactor * (s1.2.1 - 128) + 128,
       contrastFactor * (s1.2.2 - 128) + 128)
    else s1
  let s3 := (clamp255 s2.1, clamp255 s2.2.1, clamp255 s2.2.2)
  let luma := 0.299 * s3.1 + 0.587 * s3.2.1 + 0.114 * s3.2.2
  let s4 :=
    if saturationFactor ≠ 1 then
      (luma + (s3.1 - luma) * saturationFactor, luma + (s3.2.1 - luma) * saturationFactor,
       luma + (s3.2.2 - luma) * saturationFactor)
    else s3
  let s5 :=
    if shadowLift ≠ 0 then
      let lift := max 0 (1 - luma / 255) * shadowLift
      (s4.1 + lift, s4.2.1 + lift, s4.2.2 + lift)
    else s4
  let s6 :=
    if highlightDrop ≠ 0 then
      let drop := max 0 ((luma - 128) / 128) * highlightDrop
      (s5.1 + drop, s5.2.1 + drop, s5.2.2 + drop)
    else s5
  let s7 := (clamp255 s6.1, clamp255 s6.2.1, clamp255 s6.2.2)
  let sl := trilinearSample lut s7.1 s7.2.1 s7.2.2
  let s8 :=
    if intensity ≠ 1 then
      (lerp s7.1 sl.1 intensity, lerp s7.2.1 sl.2.1 intensity,
       lerp s7.2.2 sl.2.2 intensity)
    else sl
  let sm := applyMasks jsm masks ⟨s8.1, s8.2.1, s8.2.2⟩ k
  let s9 :=
    if 0 < vignetteStr then
      let dx := (x : ℚ) - centerX
      let dy := (y : ℚ) - centerY
      let vFactor := jsm.sqrt (dx * dx + dy * dy) / maxDist
      let darkening := vFactor * vFactor * vFactor * vignetteStr * 255
      (sm.r - darkening, sm.g - darkening, sm.b - darkening)
    else (sm.r, sm.g, sm.b)
  (s9.1 + dither, s9.2.1 + dither, s9.2.2 + dither)

/-- Final clamp of the pixel loop, applied to all three channels. -/
def clampTriple (t : ℚ × ℚ × ℚ) : ℚ × ℚ × ℚ :=
  (clamp255 t.1, clamp255 t.2.1, clamp255 t.2.2)

/-- Histogram counter increment `hist[i]++`. -/
def bump (h : ℕ → ℕ) (i : ℕ) : ℕ → ℕ := Function.update h i (h i + 1)

/-- State threaded through the pixel loop of `applyLUT`: PRNG state, output
pixel buffer, histogram counters. -/
structure LoopState where
  rng : ℕ
  out : ℕ → Px
  hr : ℕ → ℕ
  hg : ℕ → ℕ
  hb : ℕ → ℕ

/-- One iteration of the pixel loop: draw the dither value, run the pixel
pipeline, clamp, write the output bytes (alpha copied verbatim), and bin the
truncated channels into the histograms. -/
def lutStep (jsm : JsMath) (lut : LUTContainer) (adj : Adjustments)
    (intensity : ℚ) (masks : List MaskLayer) (width height : ℕ)
    (imgPx : ℕ → Px) (s : LoopState) (k : ℕ) : LoopState :=
  let rnext := mulberryNext s.rng
  let v := clampTriple (pixelRaw jsm lut adj intensity masks width height
    (imgPx k) (k % width) (k / width) k (rnext.2 - 1 / 2))
  { rng := rnext.1
    out := Function.update s.out k
      (Px.mk (toU8C v.1) (toU8C v.2.1) (toU8C v.2.2) (imgPx k).a)
    hr := bump s.hr (binOf v.1)
    hg := bump s.hg (binOf v.2.1)
    hb := bump s.hb (binOf v.2.2) }

/-- The pixel loop of `applyLUT` after `m` iterations: initial state is the
copied source buffer, zeroed histograms and the fresh `mulberry32(1337)`
generator. -/
def lutFold (jsm : JsMath) (img : Image) (lut : LUTContainer)
    (adj : Adjustments) (intensity : ℚ) (masks : List MaskLayer) (m : ℕ) :
    LoopState :=
  (List.range m).foldl
    (lutStep jsm lut adj intensity masks img.width img.height img.px)
    (LoopState.mk 1337 img.px (fun _ => 0) (fun _ => 0) (fun _ => 0))

/-- `applyLUT` (the mask-aware version of `imageProcessor.ts`): copy the
source buffer, seed `mulberry32(1337)`, loop over all pixels in row-major
order, return the graded image and the histogram. -/
def applyLUT (jsm : JsMath) (img : Image) (lut : LUTContainer)
    (adj : Adjustments) (intensity : ℚ) (masks : List MaskLayer) :
    Image × Histogram :=
  let s := lutFold jsm img lut adj intensity masks (img.width * img.height)
  (Image.mk img.width img.height s.out, Histogram.mk s.hr s.hg s.hb)

/-- The clamped value of the pixel pipeline at flat index `p`, with the
dither value the `(p+1)`-th draw of a generator seeded with 1337 — i.e. the
value `applyLUT` writes back (after byte conversion) and bins at pixel
`p`. -/
def pixelFinal (jsm : JsMath) (img : Image) (lut : LUTContainer)
    (adj : Adjustments) (intensity : ℚ) (masks : List MaskLayer) (p : ℕ) :
    ℚ × ℚ × ℚ :=
  clampTriple (pixelRaw jsm lut adj intensity masks img.width img.height
    (img.px p) (p % img.width) (p / img.width) p (drawAt 1337 p - 1 / 2))

/-- The output pixel `applyLUT` writes at flat index `p`: the three clamped
channels converted by the `Uint8ClampedArray` store, the source alpha byte
copied verbatim. -/
def outPx (jsm : JsMath) (img : Image) (lut : LUTContainer)
    (adj : Adjustments) (intensity : ℚ) (masks : List MaskLayer) (p : ℕ) :
    Px :=
  Px.mk (toU8C (pixelFinal jsm img lut adj intensity masks p).1)
    (toU8C (pixelFinal jsm img lut adj intensity masks p).2.1)
    (toU8C (pixelFinal jsm img lut adj intensity masks p).2.2)
    (img.px p).a

/-- The alpha byte a mask contributes at pixel `pix` (0 for a `null`
buffer). -/
def alphaAt (m : MaskLayer) (pix : ℕ) : ℕ :=
  match m.data with
  | none => 0
  | some d => (d pix).val

/-! ### The texture pass (`applyTexture`: smart sharpen → grain) -/

/-- The sharpen part of one `applyTexture` iteration: luma-gated unsharp
mask over the 4-neighbourhood, reading neighbours from the snapshot taken at
entry (modelled by reading the input image `img`). -/
def sharpenPart (img : Image) (amount : ℚ) (k x y : ℕ) : ℚ × ℚ × ℚ :=
  let w := img.width
  let h := img.height
  let p := img.px k
  let r : ℚ := (p.r.val : ℚ)
  let g : ℚ := (p.g.val : ℚ)
  let b : ℚ := (p.b.val : ℚ)
  if 0 < x ∧ x < w - 1 ∧ 0 < y ∧ y < h - 1 then
    let sharpStrength := amount / 100 * 1.5
    let pU := img.px ((y - 1) * w + x)
    let pD := img.px ((y + 1) * w + x)
    let pL := img.px (y * w + (x - 1))
    let pR := img.px (y * w + (x + 1))
    let lumaC := getLuma r g b
    let lU := getLuma (pU.r.val : ℚ) (pU.g.val : ℚ) (pU.b.val : ℚ)
    let lD := getLuma (pD.r.val : ℚ) (pD.g.val : ℚ) (pD.b.val : ℚ)
    let lL := getLuma (pL.r.val : ℚ) (pL.g.val : ℚ) (pL.b.val : ℚ)
    let lR := getLuma (pR.r.val : ℚ) (pR.g.val : ℚ) (pR.b.val : ℚ)
    let lumaAvg := (lU + lD + lL + lR) * 0.25
    let detail := lumaC - lumaAvg
    if 6 < |detail| then
      let protection := if lumaC < 40 then max 0 (lumaC / 40) else 1
      let amt := detail * sharpStrength * protection
      (min 255 (max 0 (r + amt)), min 255 (max 0 (g + amt)),
       min 255 (max 0 (b + amt)))
    else (r, g, b)
  else (r, g, b)

/-- The grain part of one `applyTexture` iteration: overlay-blended noise
with a luma-shaped strength curve. -/
def grainPart (rgb : ℚ × ℚ × ℚ) (grainAmount noise : ℚ) : ℚ × ℚ × ℚ :=
  let luma := getLuma rgb.1 rgb.2.1 rgb.2.2 / 255
  let filmGrainCurve := max 0.2 (1 - luma * luma)
  let strength := grainAmount * filmGrainCurve * 0.4
  let noiseVal := 1 / 2 + (noise - 1 / 2) * strength * 2
  (overlayBlend (rgb.1 / 255) noiseVal * 255,
   overlayBlend (rgb.2.1 / 255) noiseVal * 255,
   overlayBlend (rgb.2.2 / 255) noiseVal * 255)

/-- One iteration of the texture loop over state `(rng, out)`: sharpen (when
active), then — when grain is active — draw one PRNG value and apply grain;
write back the three color bytes, leaving alpha untouched. -/
def texStep (img : Image) (adj : Adjustments) (s : ℕ × (ℕ → Px)) (k : ℕ) :
    ℕ × (ℕ → Px) :=
  let amount := adj.sharpening
  let grainAmount := adj.grainAmount / 100
  let x := k % img.width
  let y := k / img.width
  let rgb1 :=
    if 0 < amount then sharpenPart img amount k x y
    else (((img.px k).r.val : ℚ), ((img.px k).g.val : ℚ), ((img.px k).b.val : ℚ))
  let step2 :=
    if 0 < grainAmount then
      let rnext := mulberryNext s.1
      (rnext.1, grainPart rgb1 grainAmount rnext.2)
    else (s.1, rgb1)
  (step2.1,
   Function.update s.2 k
     (Px.mk (toU8C step2.2.1) (toU8C step2.2.2.1) (toU8C step2.2.2.2)
       ((img.px k).a)))

/-- `applyTexture` (combined smart-sharpen → grain pass of
`imageProcessor.ts`): early-exits when both effects are off; otherwise
re-seeds `mulberry32(1337)` and maps every pixel.  The source also computes
`grainSize = Math.max(1, adjustments.grainSize)`, which is never read
afterwards; the binding is kept here. -/
def applyTexture (img : Image) (adj : Adjustments) : Image :=
  let amount := adj.sharpening
  let grainAmount := adj.grainAmount / 100
  let grainSize := max 1 adj.grainSize
  let _ := grainSize
  if ¬0 < grainAmount ∧ ¬0 < amount then img
  else
    Image.mk img.width img.height
      ((List.range (img.width * img.height)).foldl (texStep img adj)
        (1337, img.px)).2

/-- A full render: the pixel loop of `applyLUT` followed by `applyTexture`
on its output (`applyLUT` calls `applyTexture(output, adjustments)` before
returning).  `ambientRng` models the internal state that a shared PRNG would
carry over from earlier renders; both passes construct a fresh
`mulberry32(1337)` generator, so this value is never consulted. -/
def fullRender (jsm : JsMath) (ambientRng : ℕ) (img : Image)
    (lut : LUTContainer) (adj : Adjustments) (intensity : ℚ)
    (masks : List MaskLayer) : Image × Histogram :=
  let _ := ambientRng
  let res := applyLUT jsm img lut adj intensity masks
  (applyTexture res.1 adj, res.2)

/-! ### LUT synthesizer (`services/lutGenerator.ts`) -/

/-- The film-simulation catalogue (`FilmSimulation` enum of `types.ts`). -/
inductive FilmSimulation where
  | provia
  | velvia
  | astia
  | classicChrome
  | realaAce
  | classicNeg
  | nostalgicNeg
  | eterna
  | acros
  | acrosYe
  | acrosR
  | acrosG
  | sepia
deriving DecidableEq

namespace LutGen

/-- `clamp` of the generator. -/
def clamp (v : ℚ) : ℚ := max 0 (min 255 v)

/-- Photoshop-style soft light blend of two byte values (`softLight`);
`Math.sqrt` is interpreted by `jsm.sqrt`. -/
def softLight (jsm : JsMath) (base blend : ℚ) : ℚ :=
  let b := base / 255
  let l := blend / 255
  let r :=
    if l ≤ 1 / 2 then b - (1 - 2 * l) * b * (1 - b)
    else
      let d := if b ≤ 1 / 4 then ((16 * b - 12) * b + 4) * b else jsm.sqrt b
      b + (2 * l - 1) * (d - b)
  r * 255

/-- A 3×3 channel-crosstalk matrix, row-major (the argument of `applyMatrix`). -/
structure M3 where
  m0 : ℚ
  m1 : ℚ
  m2 : ℚ
  m3 : ℚ
  m4 : ℚ
  m5 : ℚ
  m6 : ℚ
  m7 : ℚ
  m8 : ℚ

/-- `applyMatrix`: 3×3 matrix times the channel vector, unclamped. -/
def applyMatrix (r g b : ℚ) (m : M3) : ℚ × ℚ × ℚ :=
  (r * m.m0 + g * m.m1 + b * m.m2,
   r * m.m3 + g * m.m4 + b * m.m5,
   r * m.m6 + g * m.m7 + b * m.m8)

/-- Red gain of `applyWB` as a function of `t = temp / 100`. -/
def wbGainR (t : ℚ) : ℚ := 1 + (if 0 < t then t * 0.5 else t * 0.2)

/-- Blue gain of `applyWB` as a function of `t = temp / 100`. -/
def wbGainB (t : ℚ) : ℚ := 1 + (if t < 0 then -t * 0.5 else -t * 0.2)

/-- Green gain of `applyWB` as a function of `tn = tint / 100`. -/
def wbGainG (tn : ℚ) : ℚ := 1 - tn * 0.2

/-- The largest of the three white-balance gains (`Math.max(rGain, gGain,
bGain)`). -/
def wbMaxGain (temp tint : ℚ) : ℚ :=
  max (wbGainR (temp / 100)) (max (wbGainG (tint / 100)) (wbGainB (temp / 100)))

/-- White balance as the spec sentence describes it: independent gains
`rGain = 1 + t`, `gGain = 1 - tn`, `bGain = 1 - t` with `t = temp/100`,
`tn = tint/100`, and no renormalization.  Stated only to be compared with
the `applyWB` of the source. -/
def applyWBClaimed (r g b temp tint : ℚ) : ℚ × ℚ × ℚ :=
  (r * (1 + temp / 100), g * (1 - tint / 100), b * (1 - temp / 100))

/-- `applyWB` of the generator: asymmetric temperature gains, green tint
gain, and a partial luminance renormalization when the largest gain exceeds
1.2. -/
def applyWB (r g b temp tint : ℚ) : ℚ × ℚ × ℚ :=
  let t := temp / 100
  let tn := tint / 100
  let rGain := 1 + (if 0 < t then t * 0.5 else t * 0.2)
  let bGain := 1 + (if t < 0 then -t * 0.5 else -t * 0.2)
  let gGain := 1 - tn * 0.2
  let maxG := max rGain (max gGain bGain)
  if 1.2 < maxG then
    (r * (rGain / (maxG * 0.9)), g * (gGain / (maxG * 0.9)),
     b * (bGain / (maxG * 0.9)))
  else (r * rGain, g * gGain, b * bGain)

/-- `hslToRgb` of the generator (chroma/hue-sector formulation), used for
grading tint colors. -/
def hslToRgb (h s l : ℚ) : ℚ × ℚ × ℚ :=
  let c := (1 - |2 * l - 1|) * s
  let x := c * (1 - |jsRem (h / 60) 2 - 1|)
  let m := l - c / 2
  let rgb : ℚ × ℚ × ℚ :=
    if 0 ≤ h ∧ h < 60 then (c, x, 0)
    else if 60 ≤ h ∧ h < 120 then (x, c, 0)
    else if 120 ≤ h ∧ h < 180 then (0, c, x)
    else if 180 ≤ h ∧ h < 240 then (0, x, c)
    else if 240 ≤ h ∧ h < 300 then (x, 0, c)
    else if 300 ≤ h ∧ h < 360 then (c, 0, x)
    else (0, 0, 0)
  ((rgb.1 + m) * 255, (rgb.2.1 + m) * 255, (rgb.2.2 + m) * 255)

/-- One grading band (`applyTint` inside `applyGrading`): lerp toward the
soft-light of the fixed-chroma tint color, weighted by band strength and
mask. -/
def applyTint (jsm : JsMath) (rgb : ℚ × ℚ × ℚ) (grade : ColorGrade)
    (mask : ℚ) : ℚ × ℚ × ℚ :=
  if grade.s = 0 ∨ mask ≤ 0.001 then rgb
  else
    let tc := hslToRgb grade.h 0.8 0.5
    let strength := grade.s / 100 * mask
    let sr := softLight jsm rgb.1 tc.1
    let sg := softLight jsm rgb.2.1 tc.2.1
    let sb := softLight jsm rgb.2.2 tc.2.2
    (rgb.1 * (1 - strength) + sr * strength,
     rgb.2.1 * (1 - strength) + sg * strength,
     rgb.2.2 * (1 - strength) + sb * strength)

/-- `applyGrading`: early exit on all-zero strengths, luma-derived band
masks, shadows → midtones → highlights order. -/
def applyGrading (jsm : JsMath) (r g b : ℚ) (grading : GradingAdj) :
    ℚ × ℚ × ℚ :=
  if grading.shadows.s = 0 ∧ grading.midtones.s = 0 ∧ grading.highlights.s = 0 then
    (r, g, b)
  else
    let luma := (0.299 * r + 0.587 * g + 0.114 * b) / 255
    let shadowMask := max 0 (1 - luma * 2)
    let highlightMask := max 0 ((luma - 1 / 2) * 2)
    let midtoneMask := max 0 (1 - |luma - 1 / 2| * 2)
    let o1 := applyTint jsm (r, g, b) grading.shadows shadowMask
    let o2 := applyTint jsm o1 grading.midtones midtoneMask
    let o3 := applyTint jsm o2 grading.highlights highlightMask
    o3

/-- `applyFilmCurve`: polynomial S-curve `u²(3-2u)` blended with the input
by `strength`. -/
def applyFilmCurve (val strength : ℚ) : ℚ :=
  let u := max 0 (val / 255)
  let res := u * u * (3 - 2 * u)
  (u + (res - u) * strength) * 255

/-- `applyVibrance`: saturation boost masked by the inverse of the current
saturation. -/
def applyVibrance (r g b amount : ℚ) : ℚ × ℚ × ℚ :=
  if amount = 0 then (r, g, b)
  else
    let mx := max r (max g b)
    let mn := min r (min g b)
    if mx ≤ 0 then (r, g, b)
    else
      let sat := 1 - mn / mx
      let factor := amount / 100 * (1 - sat)
      let luma := 0.299 * r + 0.587 * g + 0.114 * b
      (luma + (r - luma) * (1 + factor), luma + (g - luma) * (1 + factor),
       luma + (b - luma) * (1 + factor))

/-- The film-simulation `switch` in the body of `generateFilmStyleLUT`. -/
def filmStage (ty : FilmSimulation) (rgb : ℚ × ℚ × ℚ) : ℚ × ℚ × ℚ :=
  let r := rgb.1
  let g := rgb.2.1
  let b := rgb.2.2
  match ty with
  | .provia =>
    let v := applyVibrance r g b 10
    (applyFilmCurve v.1 0.2, applyFilmCurve v.2.1 0.2, applyFilmCurve v.2.2 0.3)
  | .velvia =>
    let m : M3 := ⟨1.15, -0.10, -0.05, -0.05, 1.15, -0.10, -0.05, -0.10, 1.15⟩
    let a := applyMatrix r g b m
    let c := (max 0 a.1, max 0 a.2.1, max 0 a.2.2)
    let v := applyVibrance c.1 c.2.1 c.2.2 25
    (applyFilmCurve v.1 0.5, applyFilmCurve v.2.1 0.5, applyFilmCurve v.2.2 0.5)
  | .astia =>
    let f := (applyFilmCurve r 0.1, applyFilmCurve g 0.1, applyFilmCurve b 0.1)
    let v := applyVibrance f.1 f.2.1 f.2.2 5
    if v.2.1 < v.1 ∧ v.2.2 < v.2.1 then (v.1 * 1.02, v.2.1 * 1.01, v.2.2)
    else v
  | .classicChrome =>
    let m : M3 := ⟨0.95, 0.05, 0, 0, 0.95, 0.05, 0, 0.10, 0.90⟩
    let a := applyMatrix r g b m
    let c := (max 0 a.1, max 0 a.2.1, max 0 a.2.2)
    let v := applyVibrance c.1 c.2.1 c.2.2 (-15)
    (applyFilmCurve v.1 0.6, applyFilmCurve v.2.1 0.6, applyFilmCurve v.2.2 0.6)
  | .realaAce =>
    let m : M3 := ⟨1.05, -0.05, 0, 0, 1.05, -0.05, -0.05, 0, 1.05⟩
    let a := applyMatrix r g b m
    let c := (max 0 a.1, max 0 a.2.1, max 0 a.2.2)
    (applyFilmCurve c.1 0.3, applyFilmCurve c.2.1 0.3, applyFilmCurve c.2.2 0.3)
  | .classicNeg =>
    let negS := fun (val : ℚ) =>
      let u := max 0 (val / 255)
      u * u * (3 - 2 * u) * 255
    let sr := negS r
    let sg := negS g
    let sb := negS b
    let m : M3 := ⟨1.1, -0.1, 0, 0, 1.1, -0.1, 0, 0.1, 0.9⟩
    let a := applyMatrix sr sg sb m
    (max 0 a.1, max 0 a.2.1, max 0 a.2.2)
  | .nostalgicNeg =>
    let f := (applyFilmCurve r 0.2, applyFilmCurve g 0.2, applyFilmCurve b 0.2)
    let luma := (f.1 + f.2.1 + f.2.2) / 3
    if 100 < luma then
      let fa := (luma - 100) / 155 * 10
      (f.1 + fa, f.2.1 + fa * 0.5, f.2.2 - fa * 0.5)
    else f
  | .eterna =>
    let flatCurve := fun (v : ℚ) => (v / 255 * 0.8 + 0.1) * 255
    applyVibrance (flatCurve r) (flatCurve g) (flatCurve b) (-20)
  | .acros =>
    let grey := r * 0.299 + g * 0.587 + b * 0.114
    let val := applyFilmCurve grey 0.6
    (val, val, val)
  | .acrosYe =>
    let grey := r * 0.34 + g * 0.56 + b * 0.10
    let val := applyFilmCurve grey 0.6
    (val, val, val)
  | .acrosR =>
    let grey := r * 0.5 + g * 0.4 + b * 0.1
    let val := applyFilmCurve grey 0.6
    (val, val, val)
  | .acrosG =>
    let grey := r * 0.2 + g * 0.7 + b * 0.1
    let val := applyFilmCurve grey 0.6
    (val, val, val)
  | .sepia =>
    let val := r * 0.299 + g * 0.587 + b * 0.114
    (val * 1.1, val * 1.0, val * 0.8)

/-- The stored sample of `generateFilmStyleLUT` at grid corner
`(rIdx, gIdx, bIdx)`: base color `idx * 255/31`, white balance, film
simulation, grading, clamp, `Math.round`, `Uint8Array` store.  The loop
writes this triple at flat index `(rIdx + gIdx*32 + bIdx*32²) * 3`. -/
def lutCorner (jsm : JsMath) (ty : FilmSimulation) (wb : WhiteBalance)
    (grading : GradingAdj) (rIdx gIdx bIdx : ℕ) :
    Fin 256 × Fin 256 × Fin 256 :=
  let step : ℚ := 255 / 31
  let rBase := (rIdx : ℚ) * step
  let gBase := (gIdx : ℚ) * step
  let bBase := (bIdx : ℚ) * step
  let w := applyWB rBase gBase bBase wb.temp wb.tint
  let f := filmStage ty w
  let gr := applyGrading jsm f.1 f.2.1 f.2.2 grading
  (toU8W (jsRound (clamp gr.1)), toU8W (jsRound (clamp gr.2.1)),
   toU8W (jsRound (clamp gr.2.2)))

end LutGen

/-! ### Concrete instances used by witnesses and counterexamples -/

/-- A fixed interpretation of the abstract `Math` functions, used only to
instantiate theorems on concrete inputs. -/
def jsm0 : JsMath := ⟨fun _ => 1, fun _ => 0⟩

/-- All-zero color grading. -/
def zeroGrading : GradingAdj := ⟨⟨0, 0⟩, ⟨0, 0⟩, ⟨0, 0⟩⟩

/-- All-zero selective HSL. -/
def zeroHSL : HSLAdj :=
  ⟨⟨0, 0, 0⟩, ⟨0, 0, 0⟩, ⟨0, 0, 0⟩, ⟨0, 0, 0⟩, ⟨0, 0, 0⟩, ⟨0, 0, 0⟩⟩

/-- All-neutral adjustments (`grainSize` at its default 2). -/
def adjZero : Adjustments :=
  ⟨0, 0, 0, 0, 0, ⟨0, 0⟩, zeroGrading, 0, 2, 0, 0, 0, zeroHSL⟩

/-- A 1×1 black image with opaque alpha. -/
def img1 : Image :=
  ⟨1, 1, fun _ =>
    ⟨⟨0, by norm_num⟩, ⟨0, by norm_num⟩, ⟨0, by norm_num⟩, ⟨255, by norm_num⟩⟩⟩

/-- A 32-sized LUT whose every byte is 100. -/
def lutConst100 : LUTContainer := ⟨32, fun _ => ⟨100, by norm_num⟩⟩

/-- A 32-sized LUT with non-constant contents. -/
def lutRamp : LUTContainer := ⟨32, fun i => ⟨min i 255, by omega⟩⟩

/-- A concrete mask alpha buffer: 0 at pixel 0, 255 elsewhere. -/
def maskData5 : ℕ → Fin 256 := fun p =>
  if p = 0 then ⟨0, by norm_num⟩ else ⟨255, by norm_num⟩

/-- All-zero local adjustments. -/
def zeroLocal : LocalAdjustments := ⟨0, 0, 0, 0, 0, 0⟩

/-- A concrete visible mask with opacity 1/2 over `maskData5`. -/
def mask5 : MaskLayer := ⟨true, 1 / 2, some maskData5, zeroLocal⟩

/-! ### Helper lemmas -/

theorem clamp255_nonneg (v : ℚ) : 0 ≤ clamp255 v := le_max_left 0 _

theorem clamp255_le (v : ℚ) : clamp255 v ≤ 255 :=
  max_le (by norm_num) (min_le_left 255 v)

theorem rhe_floor_cases (q : ℚ) : rhe q = ⌊q⌋ ∨ rhe q = ⌊q⌋ + 1 := by
  unfold rhe
  split_ifs <;> simp

theorem binOf_eq_floor {q : ℚ} (h : 0 ≤ q) : (binOf q : ℤ) = ⌊q⌋ := by
  have h0 : (0 : ℤ) ≤ ⌊q⌋ := Int.floor_nonneg.mpr h
  simp only [binOf, jsTruncQ, if_pos h]
  omega

theorem floor_le_255 {q : ℚ} (h : q ≤ 255) : ⌊q⌋ ≤ (255 : ℤ) := by
  have hfl : (⌊q⌋ : ℚ) ≤ q := Int.floor_le q
  have : (⌊q⌋ : ℚ) ≤ 255 := le_trans hfl h
  exact_mod_cast this

theorem binOf_lt_256 {q : ℚ} (h0 : 0 ≤ q) (h1 : q ≤ 255) : binOf q < 256 := by
  have hb := binOf_eq_floor h0
  have := floor_le_255 h1
  omega

theorem pixelFinal_bounds (jsm : JsMath) (img : Image) (lut : LUTContainer)
    (adj : Adjustments) (intensity : ℚ) (masks : List MaskLayer) (p : ℕ) :
    (0 ≤ (pixelFinal jsm img lut adj intensity masks p).1 ∧
      (pixelFinal jsm img lut adj intensity masks p).1 ≤ 255) ∧
    (0 ≤ (pixelFinal jsm img lut adj intensity masks p).2.1 ∧
      (pixelFinal jsm img lut adj intensity masks p).2.1 ≤ 255) ∧
    (0 ≤ (pixelFinal jsm img lut adj intensity masks p).2.2 ∧
      (pixelFinal jsm img lut adj intensity masks p).2.2 ≤ 255) := by
  simp only [pixelFinal, clampTriple]
  exact ⟨⟨clamp255_nonneg _, clamp255_le _⟩, ⟨clamp255_nonneg _, clamp255_le _⟩,
    ⟨clamp255_nonneg _, clamp255_le _⟩⟩

/-! ### Characterization of the pixel loop -/

theorem lutFold_succ (jsm : JsMath) (img : Image) (lut : LUTContainer)
    (adj : Adjustments) (intensity : ℚ) (masks : List MaskLayer) (m : ℕ) :
    lutFold jsm img lut adj intensity masks (m + 1) =
      lutStep jsm lut adj intensity masks img.width img.height img.px
        (lutFold jsm img lut adj intensity masks m) m := by
  unfold lutFold
  rw [List.range_succ, List.foldl_append]
  rfl

theorem lutFold_rng (jsm : JsMath) (img : Image) (lut : LUTContainer)
    (adj : Adjustments) (intensity : ℚ) (masks : List MaskLayer) (m : ℕ) :
    (lutFold jsm img lut adj intensity masks m).rng = rngAfter 1337 m := by
  induction m with
  | zero => simp [lutFold, rngAfter]
  | succ m ih =>
    rw [lutFold_succ, rngAfter, Function.iterate_succ_apply', ← rngAfter, ← ih]
    rfl

theorem lutFold_out (jsm : JsMath) (img : Image) (lut : LUTContainer)
    (adj : Adjustments) (intensity : ℚ) (masks : List MaskLayer) (m p : ℕ) :
    (lutFold jsm img lut adj intensity masks m).out p =
      if p < m then outPx jsm img lut adj intensity masks p else img.px p := by
  induction m with
  | zero => simp [lutFold]
  | succ m ih =>
    rw [lutFold_succ]
    show Function.update (lutFold jsm img lut adj intensity masks m).out m _ p = _
    rcases eq_or_ne p m with hpm | hpm
    · subst hpm
      rw [Function.update_same, if_pos (Nat.lt_succ_self p)]
      unfold outPx pixelFinal drawAt
      rw [lutFold_rng]
    · rw [Function.update_noteq hpm, ih]
      rcases Nat.lt_or_ge p m with hlt | hge
      · rw [if_pos hlt, if_pos (Nat.lt_succ_of_lt hlt)]
      · rw [if_neg (Nat.not_lt.mpr hge), if_neg (by omega)]

theorem lutFold_hist (jsm : JsMath) (img : Image) (lut : LUTContainer)
    (adj : Adjustments) (intensity : ℚ) (masks : List MaskLayer) (m : ℕ)
    (β : ℕ) :
    (lutFold jsm img lut adj intensity masks m).hr β =
      ((Finset.range m).filter
        (fun p => binOf (pixelFinal jsm img lut adj intensity masks p).1 = β)).card ∧
    (lutFold jsm img lut adj intensity masks m).hg β =
      ((Finset.range m).filter
        (fun p => binOf (pixelFinal jsm img lut adj intensity masks p).2.1 = β)).card ∧
    (lutFold jsm img lut adj intensity masks m).hb β =
      ((Finset.range m).filter
        (fun p => binOf (pixelFinal jsm img lut adj intensity masks p).2.2 = β)).card := by
  induction m with
  | zero => simp [lutFold]
  | succ m ih =>
    rw [lutFold_succ]
    have hdraw : (mulberryNext (lutFold jsm img lut adj intensity masks m).rng).2 =
        drawAt 1337 m := by
      rw [lutFold_rng]; rfl
    have key : ∀ (hacc : ℕ → ℕ) (v : ℚ),
        hacc β = ((Finset.range m).filter
          (fun p => binOf (pixelFinal jsm img lut adj intensity masks p).1 = β)).card →
        True := fun _ _ _ => trivial
    clear key
    refine ⟨?_, ?_, ?_⟩
    · show bump (lutFold jsm img lut adj intensity masks m).hr
        (binOf (clampTriple (pixelRaw jsm lut adj intensity masks img.width img.height
          (img.px m) (m % img.width) (m / img.width) m
          ((mulberryNext (lutFold jsm img lut adj intensity masks m).rng).2 - 1 / 2))).1) β = _
      rw [hdraw]
      have hv : clampTriple (pixelRaw jsm lut adj intensity masks img.width img.height
          (img.px m) (m % img.width) (m / img.width) m (drawAt 1337 m - 1 / 2)) =
          pixelFinal jsm img lut adj intensity masks m := rfl
      rw [hv, Finset.range_succ, Finset.filter_insert]
      by_cases hbin : binOf (pixelFinal jsm img lut adj intensity masks m).1 = β
      · rw [if_pos hbin, Finset.card_insert_of_not_mem (by simp), bump,
          Function.update_apply, if_pos hbin.symm, hbin, ih.1]
      · rw [if_neg hbin, bump, Function.update_apply,
          if_neg (fun hc => hbin hc.symm), ih.1]
    · show bump (lutFold jsm img lut adj intensity masks m).hg
        (binOf (clampTriple (pixelRaw jsm lut adj intensity masks img.width img.height
          (img.px m) (m % img.width) (m / img.width) m
          ((mulberryNext (lutFold jsm img lut adj intensity masks m).rng).2 - 1 / 2))).2.1) β = _
      rw [hdraw]
      have hv : clampTriple (pixelRaw jsm lut adj intensity masks img.width img.height
          (img.px m) (m % img.width) (m / img.width) m (drawAt 1337 m - 1 / 2)) =
          pixelFinal jsm img lut adj intensity masks m := rfl
      rw [hv, Finset.range_succ, Finset.filter_insert]
      by_cases hbin : binOf (pixelFinal jsm img lut adj intensity masks m).2.1 = β
      · rw [if_pos hbin, Finset.card_insert_of_not_mem (by simp), bump,
          Function.update_apply, if_pos hbin.symm, hbin, ih.2.1]
      · rw [if_neg hbin, bump, Function.update_apply,
          if_neg (fun hc => hbin hc.symm), ih.2.1]
    · show bump (lutFold jsm img lut adj intensity masks m).hb
        (binOf (clampTriple (pixelRaw jsm lut adj intensity masks img.width img.height
          (img.px m) (m % img.width) (m / img.width) m
          ((mulberryNext (lutFold jsm img lut adj intensity masks m).rng).2 - 1 / 2))).2.2) β = _
      rw [hdraw]
      have hv : clampTriple (pixelRaw jsm lut adj intensity masks img.width img.height
          (img.px m) (m % img.width) (m / img.width) m (drawAt 1337 m - 1 / 2)) =
          pixelFinal jsm img lut adj intensity masks m := rfl
      rw [hv, Finset.range_succ, Finset.filter_insert]
      by_cases hbin : binOf (pixelFinal jsm img lut adj intensity masks m).2.2 = β
      · rw [if_pos hbin, Finset.card_insert_of_not_mem (by simp), bump,
          Function.update_apply, if_pos hbin.symm, hbin, ih.2.2]
      · rw [if_neg hbin, bump, Function.update_apply,
          if_neg (fun hc => hbin hc.symm), ih.2.2]

theorem applyLUT_px (jsm : JsMath) (img : Image) (lut : LUTContainer)
    (adj : Adjustments) (intensity : ℚ) (masks : List MaskLayer) (p : ℕ)
    (hp : p < img.width * img.height) :
    (applyLUT jsm img lut adj intensity masks).1.px p =
      outPx jsm img lut adj intensity masks p := by
  show (lutFold jsm img lut adj intensity masks (img.width * img.height)).out p = _
  rw [lutFold_out, if_pos hp]

theorem applyLUT_hist (jsm : JsMath) (img : Image) (lut : LUTContainer)
    (adj : Adjustments) (intensity : ℚ) (masks : List MaskLayer) (β : ℕ) :
    (applyLUT jsm img lut adj intensity masks).2.r β =
      ((Finset.range (img.width * img.height)).filter
        (fun p => binOf (pixelFinal jsm img lut adj intensity masks p).1 = β)).card ∧
    (applyLUT jsm img lut adj intensity masks).2.g β =
      ((Finset.range (img.width * img.height)).filter
        (fun p => binOf (pixelFinal jsm img lut adj intensity masks p).2.1 = β)).card ∧
    (applyLUT jsm img lut adj intensity masks).2.b β =
      ((Finset.range (img.width * img.height)).filter
        (fun p => binOf (pixelFinal jsm img lut adj intensity masks p).2.2 = β)).card :=
  lutFold_hist jsm img lut adj intensity masks (img.width * img.height) β

/-! ### Characterization of the texture pass -/

theorem texFold_alpha (img : Image) (adj : Adjustments) (m p : ℕ) :
    ((((List.range m).foldl (texStep img adj) (1337, img.px)).2) p).a =
      (img.px p).a := by
  induction m with
  | zero => simp
  | succ m ih =>
    rw [List.range_succ, List.foldl_append]
    show ((Function.update ((List.range m).foldl (texStep img adj) (1337, img.px)).2 m _) p).a = _
    rcases eq_or_ne p m with hpm | hpm
    · subst hpm
      rw [Function.update_same]
    · rw [Function.update_noteq hpm]
      exact ih

theorem applyTexture_alpha (img : Image) (adj : Adjustments) (p : ℕ) :
    ((applyTexture img adj).px p).a = (img.px p).a := by
  unfold applyTexture
  dsimp only
  split_ifs
  · rfl
  · exact texFold_alpha img adj (img.width * img.height) p

theorem applyTexture_off (img : Image) (adj : Adjustments)
    (hs : adj.sharpening ≤ 0) (hg : adj.grainAmount ≤ 0) :
    applyTexture img adj = img := by
  have h1 : ¬(0 : ℚ) < adj.grainAmount / 100 := by
    rw [not_lt]
    linarith
  have h2 : ¬(0 : ℚ) < adj.sharpening := not_lt.mpr hs
  unfold applyTexture
  dsimp only
  rw [if_pos ⟨h1, h2⟩]

/-! ### Concrete mulberry32 values -/

theorem mulberryState_1337 : mulberryState 1337 = 1831567150 := by decide

theorem mulberryWord_first : mulberryWord 1831567150 = 792042790 := by decide

theorem mulberryState_snd : mulberryState 1831567150 = 3663132963 := by decide

theorem mulberryWord_snd : mulberryWord 3663132963 = 815997621 := by decide

/-! ### Claim theorems -/

/-- C1: for every source image, adjustments snapshot, intensity and mask
list, the full render (the pixel loop of `applyLUT` followed by
`applyTexture`) writes the source alpha byte unchanged to the output at
every pixel. -/
theorem c1_alpha_preserved (jsm : JsMath) (amb : ℕ) (img : Image)
    (lut : LUTContainer) (adj : Adjustments) (intensity : ℚ)
    (masks : List MaskLayer) (p : ℕ) (hp : p < img.width * img.height) :
    ((fullRender jsm amb img lut adj intensity masks).1.px p).a =
      (img.px p).a := by
  show ((applyTexture (applyLUT jsm img lut adj intensity masks).1 adj).px p).a = _
  rw [applyTexture_alpha, applyLUT_px jsm img lut adj intensity masks p hp]
  rfl

/-- Witness for C1 at a concrete 1×1 image. -/
theorem c1_alpha_preserved_witness :
    0 < img1.width * img1.height ∧
    ((fullRender jsm0 0 img1 lutConst100 adjZero 1 []).1.px 0).a =
      (img1.px 0).a :=
  ⟨by norm_num [img1],
   c1_alpha_preserved jsm0 0 img1 lutConst100 adjZero 1 [] 0
     (by norm_num [img1])⟩

/-- C6: rendering is deterministic — the output image and histogram do not
depend on any pre-existing generator state, because both passes construct a
fresh `mulberry32(1337)` generator. -/
theorem c6_deterministic (jsm : JsMath) (amb1 amb2 : ℕ) (img : Image)
    (lut : LUTContainer) (adj : Adjustments) (intensity : ℚ)
    (masks : List MaskLayer) :
    fullRender jsm amb1 img lut adj intensity masks =
      fullRender jsm amb2 img lut adj intensity masks := rfl

/-- C7: each of the three 256-bin histogram channels of a render sums to
exactly `width * height`. -/
theorem c7_histogram_total (jsm : JsMath) (amb : ℕ) (img : Image)
    (lut : LUTContainer) (adj : Adjustments) (intensity : ℚ)
    (masks : List MaskLayer) :
    (∑ β ∈ Finset.range 256,
        (fullRender jsm amb img lut adj intensity masks).2.r β) =
      img.width * img.height ∧
    (∑ β ∈ Finset.range 256,
        (fullRender jsm amb img lut adj intensity masks).2.g β) =
      img.width * img.height ∧
    (∑ β ∈ Finset.range 256,
        (fullRender jsm amb img lut adj intensity masks).2.b β) =
      img.width * img.height := by
  have hres : (fullRender jsm amb img lut adj intensity masks).2 =
      (applyLUT jsm img lut adj intensity masks).2 := rfl
  refine ⟨?_, ?_, ?_⟩
  · have hmem : ∀ p ∈ Finset.range (img.width * img.height),
        binOf (pixelFinal jsm img lut adj intensity masks p).1 ∈
          Finset.range 256 := by
      intro p _
      rw [Finset.mem_range]
      exact binOf_lt_256 (pixelFinal_bounds jsm img lut adj intensity masks p).1.1
        (pixelFinal_bounds jsm img lut adj intensity masks p).1.2
    calc (∑ β ∈ Finset.range 256,
            (fullRender jsm amb img lut adj intensity masks).2.r β)
        = ∑ β ∈ Finset.range 256,
            ((Finset.range (img.width * img.height)).filter
              (fun p => binOf (pixelFinal jsm img lut adj intensity masks p).1 = β)).card := by
          refine Finset.sum_congr rfl fun β _ => ?_
          rw [hres]
          exact (applyLUT_hist jsm img lut adj intensity masks β).1
      _ = (Finset.range (img.width * img.height)).card :=
          (Finset.card_eq_sum_card_fiberwise hmem).symm
      _ = img.width * img.height := Finset.card_range _
  · have hmem : ∀ p ∈ Finset.range (img.width * img.height),
        binOf (pixelFinal jsm img lut adj intensity masks p).2.1 ∈
          Finset.range 256 := by
      intro p _
      rw [Finset.mem_range]
      exact binOf_lt_256 (pixelFinal_bounds jsm img lut adj intensity masks p).2.1.1
        (pixelFinal_bounds jsm img lut adj intensity masks p).2.1.2
    calc (∑ β ∈ Finset.range 256,
            (fullRender jsm amb img lut adj intensity masks).2.g β)
        = ∑ β ∈ Finset.range 256,
            ((Finset.range (img.width * img.height)).filter
              (fun p => binOf (pixelFinal jsm img lut adj intensity masks p).2.1 = β)).card := by
          refine Finset.sum_congr rfl fun β _ => ?_
          rw [hres]
          exact (applyLUT_hist jsm img lut adj intensity masks β).2.1
      _ = (Finset.range (img.width * img.height)).card :=
          (Finset.card_eq_sum_card_fiberwise hmem).symm
      _ = img.width * img.height := Finset.card_range _
  · have hmem : ∀ p ∈ Finset.range (img.width * img.height),
        binOf (pixelFinal jsm img lut adj intensity masks p).2.2 ∈
          Finset.range 256 := by
      intro p _
      rw [Finset.mem_range]
      exact binOf_lt_256 (pixelFinal_bounds jsm img lut adj intensity masks p).2.2.1
        (pixelFinal_bounds jsm img lut adj intensity masks p).2.2.2
    calc (∑ β ∈ Finset.range 256,
            (fullRender jsm amb img lut adj intensity masks).2.b β)
        = ∑ β ∈ Finset.range 256,
            ((Finset.range (img.width * img.height)).filter
              (fun p => binOf (pixelFinal jsm img lut adj intensity masks p).2.2 = β)).card := by
          refine Finset.sum_congr rfl fun β _ => ?_
          rw [hres]
          exact (applyLUT_hist jsm img lut adj intensity masks β).2.2
      _ = (Finset.range (img.width * img.height)).card :=
          (Finset.card_eq_sum_card_fiberwise hmem).symm
      _ = img.width * img.height := Finset.card_range _

/-- C9: the texture pass ignores `grainSize` entirely — its output is the
same for any two values of the slider — and consecutive pixels draw distinct
PRNG noise values (the first two draws of `mulberry32(1337)` differ), so
pixels inside an s×s block do **not** share one noise value. -/
theorem c9_grain_blocks :
    (∀ (img : Image) (adj : Adjustments) (s1 s2 : ℚ),
      applyTexture img { adj with grainSize := s1 } =
        applyTexture img { adj with grainSize := s2 }) ∧
    drawAt 1337 0 < drawAt 1337 1 := by
  constructor
  · intro img adj s1 s2
    rfl
  · simp only [drawAt, rngAfter, Function.iterate_zero_apply,
      Function.iterate_one, mulberryNext, mulberryState_1337,
      mulberryWord_first, mulberryState_snd, mulberryWord_snd]
    norm_num

/-- C3: the LUT stage of the pixel processor is the 8-corner trilinear
fetch, and whenever the mapped grid positions `c * (size-1)/255` of all
three input channels are integers, the sampled value is exactly the LUT
sample stored at that grid corner. -/
theorem c3_trilinear_corner (lut : LUTContainer) (r g b : ℚ)
    (hr : Int.fract (r * (((lut.size - 1 : ℕ) : ℚ) / 255)) = 0)
    (hg : Int.fract (g * (((lut.size - 1 : ℕ) : ℚ) / 255)) = 0)
    (hb : Int.fract (b * (((lut.size - 1 : ℕ) : ℚ) / 255)) = 0) :
    trilinearSample lut r g b =
      ((getV lut ⌊r * (((lut.size - 1 : ℕ) : ℚ) / 255)⌋
          ⌊g * (((lut.size - 1 : ℕ) : ℚ) / 255)⌋
          ⌊b * (((lut.size - 1 : ℕ) : ℚ) / 255)⌋).r,
       (getV lut ⌊r * (((lut.size - 1 : ℕ) : ℚ) / 255)⌋
          ⌊g * (((lut.size - 1 : ℕ) : ℚ) / 255)⌋
          ⌊b * (((lut.size - 1 : ℕ) : ℚ) / 255)⌋).g,
       (getV lut ⌊r * (((lut.size - 1 : ℕ) : ℚ) / 255)⌋
          ⌊g * (((lut.size - 1 : ℕ) : ℚ) / 255)⌋
          ⌊b * (((lut.size - 1 : ℕ) : ℚ) / 255)⌋).b) := by
  have hr' : r * (((lut.size - 1 : ℕ) : ℚ) / 255) -
      (⌊r * (((lut.size - 1 : ℕ) : ℚ) / 255)⌋ : ℚ) = 0 := by
    rw [Int.self_sub_floor]; exact hr
  have hg' : g * (((lut.size - 1 : ℕ) : ℚ) / 255) -
      (⌊g * (((lut.size - 1 : ℕ) : ℚ) / 255)⌋ : ℚ) = 0 := by
    rw [Int.self_sub_floor]; exact hg
  have hb' : b * (((lut.size - 1 : ℕ) : ℚ) / 255) -
      (⌊b * (((lut.size - 1 : ℕ) : ℚ) / 255)⌋ : ℚ) = 0 := by
    rw [Int.self_sub_floor]; exact hb
  simp only [trilinearSample, lerpColor, lerp, hr', hg', hb', zero_mul,
    add_zero]

/-- Witness for C3 at a grid corner of a concrete LUT. -/
theorem c3_trilinear_corner_witness :
    Int.fract ((255 : ℚ) * (((lutRamp.size - 1 : ℕ) : ℚ) / 255)) = 0 ∧
    trilinearSample lutRamp 255 255 255 =
      ((getV lutRamp 31 31 31).r, (getV lutRamp 31 31 31).g,
        (getV lutRamp 31 31 31).b) := by
  have hf : Int.fract ((255 : ℚ) * (((lutRamp.size - 1 : ℕ) : ℚ) / 255)) = 0 := by
    norm_num [lutRamp, Int.fract]
  refine ⟨hf, ?_⟩
  have h := c3_trilinear_corner lutRamp 255 255 255 hf hf hf
  rw [h]
  norm_num [lutRamp]

/-- C10: after the pre-LUT clamp to `[0,255]`, the lower corner index
`⌊c * (size-1)/255⌋` and the clamped upper index `min (size-1) (lower+1)`
both lie in `[0, size-1]`, and every flat index
`(ri + gi*size + bi*size²)*3 + k`, `k ≤ 2`, built from indices in that range
is a valid index into the `3*size³`-length LUT data. -/
theorem c10_lut_indices_safe (lut : LUTContainer) (hN : 1 ≤ lut.size) (c : ℚ) :
    (0 ≤ ⌊clamp255 c * (((lut.size - 1 : ℕ) : ℚ) / 255)⌋ ∧
      ⌊clamp255 c * (((lut.size - 1 : ℕ) : ℚ) / 255)⌋ ≤ (lut.size : ℤ) - 1 ∧
      0 ≤ min ((lut.size - 1 : ℕ) : ℤ)
          (⌊clamp255 c * (((lut.size - 1 : ℕ) : ℚ) / 255)⌋ + 1) ∧
      min ((lut.size - 1 : ℕ) : ℤ)
          (⌊clamp255 c * (((lut.size - 1 : ℕ) : ℚ) / 255)⌋ + 1) ≤
        (lut.size : ℤ) - 1) ∧
    ∀ ri gi bi k : ℤ, 0 ≤ ri → ri ≤ (lut.size : ℤ) - 1 → 0 ≤ gi →
      gi ≤ (lut.size : ℤ) - 1 → 0 ≤ bi → bi ≤ (lut.size : ℤ) - 1 →
      0 ≤ k → k ≤ 2 →
      0 ≤ (ri + gi * lut.size + bi * (lut.size * lut.size)) * 3 + k ∧
      (ri + gi * lut.size + bi * (lut.size * lut.size)) * 3 + k <
        3 * ((lut.size : ℤ) * lut.size * lut.size) := by
  have hN1 : (1 : ℤ) ≤ (lut.size : ℤ) := by exact_mod_cast hN
  have hN0 : (0 : ℤ) ≤ (lut.size : ℤ) := by omega
  have hcastZ : ((lut.size - 1 : ℕ) : ℤ) = (lut.size : ℤ) - 1 := by
    push_cast [Nat.cast_sub hN]
    ring
  have hsnn : (0 : ℚ) ≤ ((lut.size - 1 : ℕ) : ℚ) / 255 :=
    div_nonneg (Nat.cast_nonneg _) (by norm_num)
  have hlo0 : 0 ≤ ⌊clamp255 c * (((lut.size - 1 : ℕ) : ℚ) / 255)⌋ :=
    Int.floor_nonneg.mpr (mul_nonneg (clamp255_nonneg c) hsnn)
  have hloN : ⌊clamp255 c * (((lut.size - 1 : ℕ) : ℚ) / 255)⌋ ≤
      (lut.size : ℤ) - 1 := by
    have hle : clamp255 c * (((lut.size - 1 : ℕ) : ℚ) / 255) ≤
        ((lut.size - 1 : ℕ) : ℚ) := by
      calc clamp255 c * (((lut.size - 1 : ℕ) : ℚ) / 255)
          ≤ 255 * (((lut.size - 1 : ℕ) : ℚ) / 255) :=
            mul_le_mul_of_nonneg_right (clamp255_le c) hsnn
        _ = ((lut.size - 1 : ℕ) : ℚ) := by
            rw [mul_comm]
            exact div_mul_cancel₀ _ (by norm_num)
    have := Int.floor_le_floor hle
    rw [Int.floor_natCast] at this
    omega
  refine ⟨⟨hlo0, hloN, le_min (by omega) (by omega), ?_⟩, ?_⟩
  · have hm := min_le_left ((lut.size - 1 : ℕ) : ℤ)
      (⌊clamp255 c * (((lut.size - 1 : ℕ) : ℚ) / 255)⌋ + 1)
    omega
  · intro ri gi bi k h1 h2 h3 h4 h5 h6 h7 h8
    have hg0 : 0 ≤ gi * (lut.size : ℤ) := mul_nonneg h3 hN0
    have hb0 : 0 ≤ bi * ((lut.size : ℤ) * lut.size) :=
      mul_nonneg h5 (mul_nonneg hN0 hN0)
    have hg1 : gi * (lut.size : ℤ) ≤ ((lut.size : ℤ) - 1) * lut.size :=
      mul_le_mul_of_nonneg_right h4 hN0
    have hb1 : bi * ((lut.size : ℤ) * lut.size) ≤
        ((lut.size : ℤ) - 1) * ((lut.size : ℤ) * lut.size) :=
      mul_le_mul_of_nonneg_right h6 (mul_nonneg hN0 hN0)
    have hid : ((lut.size : ℤ) - 1) + ((lut.size : ℤ) - 1) * lut.size +
        ((lut.size : ℤ) - 1) * ((lut.size : ℤ) * lut.size) =
        (lut.size : ℤ) * lut.size * lut.size - 1 := by ring
    constructor
    · linarith
    · linarith

/-- Witness for C10 at a concrete LUT and out-of-range input. -/
theorem c10_lut_indices_safe_witness :
    0 ≤ ⌊clamp255 300 * (((lutConst100.size - 1 : ℕ) : ℚ) / 255)⌋ ∧
    ⌊clamp255 300 * (((lutConst100.size - 1 : ℕ) : ℚ) / 255)⌋ ≤
      (lutConst100.size : ℤ) - 1 :=
  ⟨((c10_lut_indices_safe lutConst100 (by norm_num [lutConst100]) 300).1).1,
   ((c10_lut_indices_safe lutConst100 (by norm_num [lutConst100]) 300).1).2.1⟩

/-- A mask whose alpha byte is zero at `pix` leaves the accumulated color
unchanged at `pix`, whatever its opacity. -/
theorem maskStep_zero_alpha (jsm : JsMath) (c : RGBq) (m : MaskLayer)
    (pix : ℕ) (h : alphaAt m pix = 0) : maskStep jsm c m pix = c := by
  rcases hdm : m.data with _ | d
  · simp only [maskStep, hdm]
  · simp only [maskStep, alphaAt, hdm] at h ⊢
    rw [if_neg (by omega)]

/-- C5: mask alpha is authoritative in the local-mask stage — a mask whose
alpha byte is 0 at a pixel changes nothing there regardless of its opacity;
where alpha is positive the locally adjusted color is blended with weight
`(alpha/255) * opacity`; and masks compose in list order, later masks seeing
the result of earlier ones. -/
theorem c5_mask_semantics (jsm : JsMath) (pix : ℕ) (c : RGBq) (m : MaskLayer) :
    (∀ ms1 ms2 : List MaskLayer, alphaAt m pix = 0 →
      applyMasks jsm (ms1 ++ m :: ms2) c pix =
        applyMasks jsm (ms1 ++ ms2) c pix) ∧
    (∀ d, m.data = some d → 0 < (d pix).val →
      maskStep jsm c m pix =
        RGBq.mk
          (lerp c.r (applyLocalAdj jsm c.r c.g c.b m.adjustments).1
            (((d pix).val : ℚ) / 255 * m.opacity))
          (lerp c.g (applyLocalAdj jsm c.r c.g c.b m.adjustments).2.1
            (((d pix).val : ℚ) / 255 * m.opacity))
          (lerp c.b (applyLocalAdj jsm c.r c.g c.b m.adjustments).2.2
            (((d pix).val : ℚ) / 255 * m.opacity))) ∧
    (∀ ms : List MaskLayer, applyMasks jsm (m :: ms) c pix =
      applyMasks jsm ms (if maskActive m then maskStep jsm c m pix else c)
        pix) := by
  refine ⟨?_, ?_, ?_⟩
  · intro ms1 ms2 h
    unfold applyMasks
    rw [List.filter_append, List.filter_append, List.filter_cons,
      List.foldl_append, List.foldl_append]
    by_cases hma : maskActive m = true
    · rw [if_pos hma]
      rw [List.foldl_cons, maskStep_zero_alpha jsm _ m pix h]
    · rw [if_neg hma]
  · intro d hd hpos
    simp only [maskStep, hd]
    rw [if_pos hpos]
  · intro ms
    unfold applyMasks
    rw [List.filter_cons]
    by_cases hma : maskActive m = true
    · rw [if_pos hma, if_pos hma, List.foldl_cons]
    · rw [if_neg hma, if_neg hma]

/-- Witness for C5: the zero-alpha pixel of a concrete mask is untouched,
and a full-alpha pixel is blended with weight `(255/255) * opacity`. -/
theorem c5_mask_semantics_witness :
    (alphaAt mask5 0 = 0 ∧
      applyMasks jsm0 ([] ++ mask5 :: []) (RGBq.mk 10 20 30) 0 =
        applyMasks jsm0 ([] ++ []) (RGBq.mk 10 20 30) 0) ∧
    (0 < (maskData5 1).val ∧
      maskStep jsm0 (RGBq.mk 10 20 30) mask5 1 =
        RGBq.mk
          (lerp 10 (applyLocalAdj jsm0 10 20 30 mask5.adjustments).1
            (((maskData5 1).val : ℚ) / 255 * mask5.opacity))
          (lerp 20 (applyLocalAdj jsm0 10 20 30 mask5.adjustments).2.1
            (((maskData5 1).val : ℚ) / 255 * mask5.opacity))
          (lerp 30 (applyLocalAdj jsm0 10 20 30 mask5.adjustments).2.2
            (((maskData5 1).val : ℚ) / 255 * mask5.opacity))) := by
  have hz : alphaAt mask5 0 = 0 := by decide
  have hpos : 0 < (maskData5 1).val := by decide
  exact ⟨⟨hz, (c5_mask_semantics jsm0 0 (RGBq.mk 10 20 30) mask5).1 [] [] hz⟩,
    ⟨hpos, (c5_mask_semantics jsm0 1 (RGBq.mk 10 20 30) mask5).2.1 maskData5
      rfl hpos⟩⟩

/-- C4 (amended): the white-balance step multiplies the channels by the
gains `rGain = 1 + (t>0 ? 0.5t : 0.2t)`, `bGain = 1 + (t<0 ? -0.5t : -0.2t)`,
`gGain = 1 - 0.2·tn` (`t = temp/100`, `tn = tint/100`); when the largest gain
exceeds 1.2 all three gains are divided by `0.9 · maxGain` (a partial
luminance renormalization), and for `temp, tint ∈ [-50,50]` this happens
exactly when `|temp| > 40`. -/
theorem c4_wb_gains :
    (∀ r g b temp tint : ℚ, LutGen.applyWB r g b temp tint =
      if 1.2 < LutGen.wbMaxGain temp tint then
        (r * (LutGen.wbGainR (temp / 100) / (LutGen.wbMaxGain temp tint * 0.9)),
         g * (LutGen.wbGainG (tint / 100) / (LutGen.wbMaxGain temp tint * 0.9)),
         b * (LutGen.wbGainB (temp / 100) / (LutGen.wbMaxGain temp tint * 0.9)))
      else
        (r * LutGen.wbGainR (temp / 100), g * LutGen.wbGainG (tint / 100),
         b * LutGen.wbGainB (temp / 100))) ∧
    (∀ temp tint : ℚ, |temp| ≤ 50 → |tint| ≤ 50 →
      (1.2 < LutGen.wbMaxGain temp tint ↔ 40 < |temp|)) := by
  constructor
  · intro r g b temp tint
    rfl
  · intro temp tint h1 h2
    constructor
    · intro h
      by_contra hc
      push_neg at hc
      have hc1 := (abs_le.mp hc).1
      have hc2 := (abs_le.mp hc).2
      have ht1 := (abs_le.mp h2).1
      have hR : LutGen.wbGainR (temp / 100) ≤ 1.2 := by
        unfold LutGen.wbGainR
        split_ifs with ht
        · linarith
        · have : temp / 100 ≤ 0 := le_of_not_lt ht
          linarith
      have hB : LutGen.wbGainB (temp / 100) ≤ 1.2 := by
        unfold LutGen.wbGainB
        split_ifs with ht
        · linarith
        · have : 0 ≤ temp / 100 := le_of_not_lt ht
          linarith
      have hG : LutGen.wbGainG (tint / 100) ≤ 1.2 := by
        unfold LutGen.wbGainG
        linarith
      have hmax := max_le hR (max_le hG hB)
      unfold LutGen.wbMaxGain at h
      linarith
    · intro h40
      unfold LutGen.wbMaxGain
      rcases lt_abs.mp h40 with h | h
      · have hR : (1.2 : ℚ) < LutGen.wbGainR (temp / 100) := by
          unfold LutGen.wbGainR
          rw [if_pos (by linarith : (0 : ℚ) < temp / 100)]
          linarith
        exact lt_of_lt_of_le hR (le_max_left _ _)
      · have hB : (1.2 : ℚ) < LutGen.wbGainB (temp / 100) := by
          unfold LutGen.wbGainB
          rw [if_pos (by linarith : temp / 100 < 0)]
          linarith
        exact lt_of_lt_of_le hB
          (le_trans (le_max_right _ _) (le_max_right _ _))

/-- Counterexample to C4 as stated: at `temp = 50`, `tint = 0` the actual
`applyWB` does not multiply by the claimed gains `(1+t, 1-tn, 1-t)` — the
actual gains are asymmetric and renormalized. -/
theorem c4_wb_counterexample :
    LutGen.applyWB 100 100 100 50 0 ≠ LutGen.applyWBClaimed 100 100 100 50 0 := by
  have e1 : LutGen.applyWB 100 100 100 50 0 = (1000 / 9, 800 / 9, 80) := by
    norm_num [LutGen.applyWB, max_def, min_def]
  have e2 : LutGen.applyWBClaimed 100 100 100 50 0 = (150, 100, 50) := by
    norm_num [LutGen.applyWBClaimed]
  rw [e1, e2]
  norm_num [Prod.ext_iff]

/-- Witness for C4 (amended): at `temp = 50` the renormalization condition
holds. -/
theorem c4_wb_gains_witness :
    |(50 : ℚ)| ≤ 50 ∧ 1.2 < LutGen.wbMaxGain 50 0 :=
  ⟨by norm_num,
   ((c4_wb_gains.2) 50 0 (by norm_num) (by norm_num)).mpr (by norm_num)⟩

/-- C2 (amended): with identity parameters (Provia, `wb = (0,0)`, all
grading strengths 0) the synthesized LUT reproduces the base color exactly
at the eight extreme grid corners, whose coordinates are all 0 or 31; the
within-1 bound does not hold at every grid corner — at the interior corner
`(8,8,8)` the Provia vibrance/film curves move the red sample more than 1
from the base (see the counterexample). -/
theorem c2_lut_identity_extremes (jsm : JsMath) (ri gi bi : ℕ)
    (hri : ri = 0 ∨ ri = 31) (hgi : gi = 0 ∨ gi = 31)
    (hbi : bi = 0 ∨ bi = 31) :
    LutGen.lutCorner jsm .provia ⟨0, 0⟩ zeroGrading ri gi bi =
      ((if ri = 0 then (0 : Fin 256) else 255),
       (if gi = 0 then (0 : Fin 256) else 255),
       (if bi = 0 then (0 : Fin 256) else 255)) := by
  rcases hri with h | h <;> rcases hgi with h2 | h2 <;>
    rcases hbi with h3 | h3 <;> subst h <;> subst h2 <;> subst h3
  all_goals
    norm_num [LutGen.lutCorner, LutGen.applyWB, LutGen.filmStage,
      LutGen.applyVibrance, LutGen.applyFilmCurve, LutGen.applyGrading,
      LutGen.clamp, toU8W, jsRound, zeroGrading, Fin.ext_iff, max_def,
      min_def]
  all_goals decide

/-- Counterexample to C2 as stated: at interior grid corner `(8,8,8)` the
Provia identity-parameter sample (red channel 61) is farther than 1 from the
base color `8 * 255/31 ≈ 65.8`. -/
theorem c2_lut_identity_counterexample :
    1 < |(((LutGen.lutCorner jsm0 .provia ⟨0, 0⟩ zeroGrading 8 8 8).1.val : ℚ))
          - 8 * (255 / 31)| := by
  have e : LutGen.lutCorner jsm0 .provia ⟨0, 0⟩ zeroGrading 8 8 8 =
      (61, 61, 59) := by
    norm_num [LutGen.lutCorner, LutGen.applyWB, LutGen.filmStage,
      LutGen.applyVibrance, LutGen.applyFilmCurve, LutGen.applyGrading,
      LutGen.clamp, toU8W, jsRound, zeroGrading, Fin.ext_iff, max_def,
      min_def]
    all_goals decide
  rw [e]
  show (1 : ℚ) < |((61 : Fin 256).val : ℚ) - 8 * (255 / 31)|
  rw [show ((61 : Fin 256)).val = 61 from rfl]
  rw [abs_of_nonpos (by norm_num)]
  norm_num

/-- Witness for C2 (amended) at the black corner. -/
theorem c2_lut_identity_extremes_witness :
    ((0 : ℕ) = 0 ∨ (0 : ℕ) = 31) ∧
    LutGen.lutCorner jsm0 .provia ⟨0, 0⟩ zeroGrading 0 0 0 = (0, 0, 0) := by
  refine ⟨Or.inl rfl, ?_⟩
  have h := c2_lut_identity_extremes jsm0 0 0 0 (Or.inl rfl) (Or.inl rfl)
    (Or.inl rfl)
  simpa using h

theorem clamp255_eq_self {q : ℚ} (h0 : 0 ≤ q) (h1 : q ≤ 255) :
    clamp255 q = q := by
  unfold clamp255
  rw [min_eq_right h1, max_eq_right h0]

theorem rhe_toNat_bin {q : ℚ} (h0 : 0 ≤ q) :
    (rhe q).toNat = binOf q ∨ (rhe q).toNat = binOf q + 1 := by
  have hb := binOf_eq_floor h0
  have hf : (0 : ℤ) ≤ ⌊q⌋ := Int.floor_nonneg.mpr h0
  rcases rhe_floor_cases q with h | h
  · left; omega
  · right; omega

/-- C8 (amended): with the texture pass inactive, the byte stored at a pixel
is the clamped pipeline value rounded half-to-even, while the histogram
counts that pixel in the bin given by the **truncation** (floor) of the same
value; the two agree or differ by exactly one (and an active texture pass
rewrites the bytes after binning). -/
theorem c8_hist_bins (jsm : JsMath) (amb : ℕ) (img : Image)
    (lut : LUTContainer) (adj : Adjustments) (intensity : ℚ)
    (masks : List MaskLayer) (p : ℕ) (hs : adj.sharpening ≤ 0)
    (hg : adj.grainAmount ≤ 0) (hp : p < img.width * img.height) :
    (((fullRender jsm amb img lut adj intensity masks).1.px p).r.val =
        (rhe (pixelFinal jsm img lut adj intensity masks p).1).toNat ∧
      ((fullRender jsm amb img lut adj intensity masks).1.px p).g.val =
        (rhe (pixelFinal jsm img lut adj intensity masks p).2.1).toNat ∧
      ((fullRender jsm amb img lut adj intensity masks).1.px p).b.val =
        (rhe (pixelFinal jsm img lut adj intensity masks p).2.2).toNat) ∧
    (∀ β : ℕ,
      (fullRender jsm amb img lut adj intensity masks).2.r β =
        ((Finset.range (img.width * img.height)).filter
          (fun q => binOf (pixelFinal jsm img lut adj intensity masks q).1 = β)).card ∧
      (fullRender jsm amb img lut adj intensity masks).2.g β =
        ((Finset.range (img.width * img.height)).filter
          (fun q => binOf (pixelFinal jsm img lut adj intensity masks q).2.1 = β)).card ∧
      (fullRender jsm amb img lut adj intensity masks).2.b β =
        ((Finset.range (img.width * img.height)).filter
          (fun q => binOf (pixelFinal jsm img lut adj intensity masks q).2.2 = β)).card) ∧
    (((rhe (pixelFinal jsm img lut adj intensity masks p).1).toNat =
        binOf (pixelFinal jsm img lut adj intensity masks p).1 ∨
      (rhe (pixelFinal jsm img lut adj intensity masks p).1).toNat =
        binOf (pixelFinal jsm img lut adj intensity masks p).1 + 1) ∧
     ((rhe (pixelFinal jsm img lut adj intensity masks p).2.1).toNat =
        binOf (pixelFinal jsm img lut adj intensity masks p).2.1 ∨
      (rhe (pixelFinal jsm img lut adj intensity masks p).2.1).toNat =
        binOf (pixelFinal jsm img lut adj intensity masks p).2.1 + 1) ∧
     ((rhe (pixelFinal jsm img lut adj intensity masks p).2.2).toNat =
        binOf (pixelFinal jsm img lut adj intensity masks p).2.2 ∨
      (rhe (pixelFinal jsm img lut adj intensity masks p).2.2).toNat =
        binOf (pixelFinal jsm img lut adj intensity masks p).2.2 + 1)) := by
  have hb := pixelFinal_bounds jsm img lut adj intensity masks p
  have himg : (fullRender jsm amb img lut adj intensity masks).1 =
      (applyLUT jsm img lut adj intensity masks).1 := by
    show applyTexture (applyLUT jsm img lut adj intensity masks).1 adj = _
    exact applyTexture_off _ adj hs hg
  refine ⟨?_, ?_, ?_⟩
  · rw [himg, applyLUT_px jsm img lut adj intensity masks p hp]
    refine ⟨?_, ?_, ?_⟩
    · show (toU8C (pixelFinal jsm img lut adj intensity masks p).1).val = _
      show (rhe (clamp255 (pixelFinal jsm img lut adj intensity masks p).1)).toNat = _
      rw [clamp255_eq_self hb.1.1 hb.1.2]
    · show (toU8C (pixelFinal jsm img lut adj intensity masks p).2.1).val = _
      show (rhe (clamp255 (pixelFinal jsm img lut adj intensity masks p).2.1)).toNat = _
      rw [clamp255_eq_self hb.2.1.1 hb.2.1.2]
    · show (toU8C (pixelFinal jsm img lut adj intensity masks p).2.2).val = _
      show (rhe (clamp255 (pixelFinal jsm img lut adj intensity masks p).2.2)).toNat = _
      rw [clamp255_eq_self hb.2.2.1 hb.2.2.2]
  · intro β
    exact applyLUT_hist jsm img lut adj intensity masks β
  · exact ⟨rhe_toNat_bin hb.1.1, rhe_toNat_bin hb.2.1.1, rhe_toNat_bin hb.2.2.1⟩

/-- Counterexample to C8 as stated: with a constant-100 LUT and neutral
adjustments, the single pixel of a 1×1 image stores byte 100 (dither pushes
the value to ≈99.68, which rounds up), yet the histogram bin at index 100 is
empty — the pixel was counted in bin 99. -/
theorem c8_hist_byte_counterexample :
    ((fullRender jsm0 0 img1 lutConst100 adjZero 1 []).1.px 0).r =
      (100 : Fin 256) ∧
    (fullRender jsm0 0 img1 lutConst100 adjZero 1 []).2.r 100 = 0 := by
  norm_num [fullRender, applyLUT, applyTexture, img1, lutConst100, adjZero,
    zeroHSL, List.range_succ, lutFold, lutStep, pixelRaw, hasHSL, clampTriple,
    clamp255, mulberryNext, mulberryState_1337, mulberryWord_first,
    trilinearSample, getV, lerpColor, lerp, applyMasks, toU8C, rhe, binOf,
    jsTruncQ, bump, Function.update, jsm0, Fin.ext_iff, max_def, min_def,
    Int.fract]
  all_goals decide

/-- Witness for C8 (amended) on a concrete render. -/
theorem c8_hist_bins_witness :
    adjZero.sharpening ≤ 0 ∧ 0 < img1.width * img1.height ∧
    ((fullRender jsm0 0 img1 lutConst100 adjZero 1 []).1.px 0).r.val =
      (rhe (pixelFinal jsm0 img1 lutConst100 adjZero 1 [] 0).1).toNat :=
  ⟨by norm_num [adjZero], by norm_num [img1],
   ((c8_hist_bins jsm0 0 img1 lutConst100 adjZero 1 [] 0
      (by norm_num [adjZero]) (by norm_num [adjZero])
      (by norm_num [img1])).1).1⟩

end FujiSim
